import Mathlib

/-!
# Verification of the ThinkerLLM orchestration core

A shallow embedding of the plan/execute/validate pipeline of the
`SifyIntern_Work` backend (Python), together with theorems settling the
frozen claims about it.

Conventions of the embedding:
* Python/JSON values are modelled by `PyVal`; Python dictionaries are
  association lists `List (String × PyVal)` (keys produced by `json.loads`
  are unique; where that matters it appears as a `Nodup` hypothesis).
* Fallible Python code is modelled in `Except PyErr`; an uncaught Python
  exception (`TypeError`, `AttributeError`, ...) is `.error`.
* Calls into the language-model backend, the retrieval store and
  `json.loads` are external collaborators; they are passed in as explicit
  oracle functions, so every theorem quantifies over arbitrary model
  behaviour.
-/

/-- Uncaught Python exceptions that the embedded code can raise. -/
inductive PyErr where
  | typeError
  | attributeError
  deriving Repr, DecidableEq

/-- A Python/JSON value (the subset produced by `json.loads` plus `None`
and `bool`).  Dictionaries are association lists. -/
inductive PyVal where
  | pynone
  | pybool (b : Bool)
  | pyint (n : Int)
  | str (s : String)
  | list (xs : List PyVal)
  | dict (fields : List (String × PyVal))

/-- Python truthiness (`bool(v)`), for `x or default` idioms. -/
def PyVal.truthy : PyVal → Bool
  | .pynone => false
  | .pybool b => b
  | .pyint n => n != 0
  | .str s => s != ""
  | .list xs => !xs.isEmpty
  | .dict fields => !fields.isEmpty

/-- `v or w` in Python: `v` if truthy, else `w`. -/
def pyOr (v w : PyVal) : PyVal := if v.truthy then v else w

/-- `d.get(k, default)` on a Python dict. -/
def pyGet (d : List (String × PyVal)) (k : String) (dflt : PyVal) : PyVal :=
  match d.lookup k with
  | some v => v
  | none => dflt

/-- `k in d` on a Python dict (key membership). -/
def pyHasKey (d : List (String × PyVal)) (k : String) : Bool :=
  d.any (fun p => p.1 == k)

/-- `v == s` in Python for a string literal `s` (values of other types
compare unequal to a string). -/
def pyEqStr (s : String) : PyVal → Bool
  | .str t => s == t
  | _ => false

/-- Whether `needle` occurs as a contiguous substring of `hay`
(character lists). -/
def charsContain (hay needle : List Char) : Bool :=
  match hay with
  | [] => needle.isEmpty
  | _ :: rest => needle.isPrefixOf hay || charsContain rest needle

/-- Python `sub in s` for strings: substring containment. -/
def strContains (hay needle : String) : Bool :=
  charsContain hay.data needle.data

/-- Python `s in v` for a string `s`: list membership / substring test /
dict-key membership; raises `TypeError` on non-container values. -/
def pyContains (s : String) : PyVal → Except PyErr Bool
  | .list xs => .ok (xs.any (pyEqStr s))
  | .str t => .ok (strContains t s)
  | .dict fields => .ok (fields.any (fun p => p.1 == s))
  | _ => .error .typeError

/-- Python `["x"] + v`: list concatenation, `TypeError` unless `v` is a
list. -/
def pyPrepend (x : PyVal) : PyVal → Except PyErr PyVal
  | .list xs => .ok (.list (x :: xs))
  | _ => .error .typeError

/-- Python `for x in v`: the element sequence of an iterable (a string
iterates its characters, a dict its keys); `TypeError` otherwise. -/
def pyIter : PyVal → Except PyErr (List PyVal)
  | .list xs => .ok xs
  | .str t => .ok (t.data.map (fun c => .str (String.mk [c])))
  | .dict fields => .ok (fields.map (fun p => .str p.1))
  | _ => .error .typeError

/-- `v.get(k, default)` on an arbitrary value: `AttributeError` unless
`v` is a dict. -/
def pyGetAttr (v : PyVal) (k : String) (dflt : PyVal) : Except PyErr PyVal :=
  match v with
  | .dict fields => .ok (pyGet fields k dflt)
  | _ => .error .attributeError

/-- The substring matched by `re.search(r'\x7b[\s\S]*\x7d', s)`: from the
first opening brace to the last closing brace, when they exist in that
order. -/
def extractDelimited (openc closec : Char) (s : String) : Option String :=
  let cs := s.data
  match cs.findIdx? (· = openc) with
  | none => none
  | some i =>
      match (cs.reverse.findIdx? (· = closec)) with
      | none => none
      | some jrev =>
          let j := cs.length - 1 - jrev
          if i < j then some (String.mk ((cs.take (j + 1)).drop i)) else none

/-- `re.search(r'\x7b[\s\S]*\x7d', s)` (object extraction). -/
def extractBraced (s : String) : Option String := extractDelimited '{' '}' s

/-- `re.search(r'\[[\s\S]*\]', s)` (array extraction). -/
def extractBracketed (s : String) : Option String := extractDelimited '[' ']' s

section PreAct
/-! ## PlanningEngine (`backend/agents/preact.py`) -/

/-- `DOMAIN_CAPABILITIES` from `preact.py`: domain-specific capability
keys, as a literal association table. -/
def DOMAIN_CAPABILITIES : List (String × List String) :=
  [("healthcare", ["clinical_protocols", "patient_safety_guidelines", "hipaa_compliance", "medical_terminology"]),
   ("finance", ["risk_assessment_framework", "regulatory_compliance", "financial_modeling", "audit_procedures"]),
   ("hr", ["policy_framework", "employee_lifecycle", "performance_metrics", "benefits_administration"]),
   ("cloud", ["infrastructure_patterns", "security_protocols", "cost_optimization", "disaster_recovery"]),
   ("software", ["development_standards", "code_quality_metrics", "api_documentation", "testing_frameworks"]),
   ("sales", ["sales_methodology", "pipeline_management", "objection_handling", "closing_techniques"]),
   ("education", ["learning_objectives", "assessment_criteria", "engagement_strategies", "progression_paths"]),
   ("marketing", ["brand_guidelines", "content_strategy", "audience_targeting", "campaign_metrics"]),
   ("legal", ["contract_templates", "compliance_checklist", "risk_mitigation", "regulatory_mapping"]),
   ("manufacturing", ["process_workflows", "quality_standards", "safety_protocols", "efficiency_metrics"]),
   ("default", ["content_structure", "quality_guidelines", "process_flow", "output_standards"])]

/-- `PreActAgent._get_domain_capabilities`: `DOMAIN_CAPABILITIES.get(domain,
DOMAIN_CAPABILITIES["default"])`. -/
def getDomainCapabilities (domain : String) : List String :=
  match DOMAIN_CAPABILITIES.lookup domain with
  | some caps => caps
  | none => ["content_structure", "quality_guidelines", "process_flow", "output_standards"]

/-- `DOMAIN_SKILLS` from `preact.py` (base skills per domain, before the
sentinel is prepended). -/
def DOMAIN_SKILLS : List (String × List String) :=
  [("healthcare", ["Clinical Trainer", "Medical Writer", "Patient Educator", "Compliance Specialist"]),
   ("finance", ["Financial Analyst", "Risk Assessor", "Compliance Officer", "Investment Advisor"]),
   ("hr", ["Talent Developer", "Policy Writer", "Employee Relations Specialist", "Compensation Analyst"]),
   ("cloud", ["Solutions Architect", "DevOps Engineer", "Security Specialist", "Cost Optimizer"]),
   ("software", ["Technical Writer", "Code Reviewer", "Architecture Designer", "QA Specialist"]),
   ("sales", ["Sales Trainer", "CRM Specialist", "Negotiation Coach", "Pipeline Analyst"]),
   ("education", ["Curriculum Designer", "Assessment Developer", "Learning Technologist", "Subject Expert"]),
   ("marketing", ["Content Strategist", "Brand Manager", "Analytics Expert", "Campaign Designer"]),
   ("legal", ["Legal Writer", "Contract Analyst", "Compliance Trainer", "Policy Developer"]),
   ("manufacturing", ["Process Engineer", "Quality Trainer", "Safety Specialist", "Lean Consultant"]),
   ("default", ["Content Creator", "Process Designer", "Quality Analyst", "Documentation Specialist"])]

/-- `PreActAgent._get_domain_skills`: prepend the sentinel skill and
deduplicate preserving order (`list(dict.fromkeys(...))`). -/
def getDomainSkills (domain : String) : List String :=
  let base :=
    match DOMAIN_SKILLS.lookup domain with
    | some sk => sk
    | none => ["Content Creator", "Process Designer", "Quality Analyst", "Documentation Specialist"]
  ("Instructional Designer" :: base).dedup

/-- The slice of `AgentContext.metadata` that `_parse_reasoning_plan` and
`_create_default_plan` read (set earlier in `PreActAgent.run` from the
static tables): detected domain, default skills and capabilities, query. -/
structure PlanCtx where
  detectedDomain : String
  defaultSkills : List String
  defaultCapabilities : List String
  query : String
  domain : String

/-- One parsed `ReasoningStep` (the fields extracted at
`preact.py:1301-1313`; the plain Python class stores whatever values the
JSON carried, so fields stay `PyVal`). -/
structure ReasoningStep where
  step_number : PyVal
  title : PyVal
  description : PyVal
  expected_output : PyVal

/-- The fields of `ReasoningPlan` that the claims are about; the plain
Python class stores the raw parsed values.  `domain_skills` and
`domain_capabilities` keep their raw `PyVal` (the source applies
`x or default` in `__init__`). -/
structure ReasoningPlan where
  steps : List ReasoningStep
  domain_skills : PyVal
  domain_capabilities : PyVal
  detected_domain : PyVal

/-- `ReasoningPlan.__init__` normalisation of `domain_skills`
(`domain_skills or ["Instructional Designer"]`) and
`domain_capabilities` (`domain_capabilities or []`). -/
def mkReasoningPlan (steps : List ReasoningStep) (skills caps dom : PyVal) : ReasoningPlan :=
  { steps := steps
    domain_skills := pyOr skills (.list [.str "Instructional Designer"])
    domain_capabilities := pyOr caps (.list [])
    detected_domain := dom }

/-- The step-parsing loop of `_parse_reasoning_plan`
(`for i, step_data in enumerate(plan_data.get("steps", []))`): each
element must be a dict (`step_data.get` raises `AttributeError`
otherwise); iterating a non-iterable raises `TypeError`. -/
def parseSteps (stepsVal : PyVal) : Except PyErr (List ReasoningStep) := do
  let elts ← pyIter stepsVal
  elts.mapIdxM (fun i sd => do
    let sn ← pyGetAttr sd "step_number" (.pyint (i + 1))
    let ti ← pyGetAttr sd "title" (.str ("Step " ++ toString (i + 1)))
    let de ← pyGetAttr sd "description" (.str "")
    let eo ← pyGetAttr sd "expected_output" (.str "")
    pure { step_number := sn, title := ti, description := de, expected_output := eo })

/-- The clarification-question loop of `_parse_reasoning_plan`
(`for q_data in plan_data.get("clarification_questions", [])`): only its
exception behaviour matters to the claims (each element must be a dict);
the constructed `ClarificationQuestion` objects are plain records that
never raise. -/
def parseQuestions (qsVal : PyVal) : Except PyErr Unit := do
  let elts ← pyIter qsVal
  let _ ← elts.mapM (fun q => pyGetAttr q "id" .pynone)
  pure ()

/-- The numbered-step extraction of `_create_default_plan` (regex
heuristics over the raw response).  Modelled as: each maximal digit run
followed by a separator starts a step; claims never inspect the steps of
a fallback plan, only that it is schema-valid. -/
def extractNumberedSteps (raw : String) : List ReasoningStep :=
  let rec go : List Char → List ReasoningStep → List ReasoningStep
    | [], acc => acc.reverse
    | [_], acc => acc.reverse
    | c :: sep :: rest2, acc =>
        if c.isDigit ∧ (sep = '.' ∨ sep = ':' ∨ sep = ')') then
          go rest2 ({ step_number := .pyint (c.toNat - '0'.toNat)
                      title := .str (String.mk (rest2.take 50))
                      description := .str (String.mk rest2)
                      expected_output := .str "Completed step output" } :: acc)
        else go (sep :: rest2) acc
  (go raw.data []).take 8

/-- `_create_default_plan`: the deterministic fallback plan constructor
(skills/capabilities from context defaults, sentinel prepended when
absent, steps regex-extracted from the raw response or a fixed 5-step
default). -/
def createDefaultPlan (ctx : PlanCtx) (raw : String) : ReasoningPlan :=
  let skills :=
    if ctx.defaultSkills.contains "Instructional Designer" then ctx.defaultSkills
    else "Instructional Designer" :: ctx.defaultSkills
  let extracted := extractNumberedSteps raw
  let steps :=
    if extracted.isEmpty then
      [{ step_number := .pyint 1, title := .str "Deep Analysis & Context Gathering"
         description := .str ("Thoroughly analyze: " ++ ctx.query), expected_output := .str "Complete understanding" },
       { step_number := .pyint 2, title := .str "Strategy Selection & Planning"
         description := .str "Select optimal approach", expected_output := .str "Clear execution strategy" },
       { step_number := .pyint 3, title := .str "Domain Skills Application"
         description := .str "Apply domain skills", expected_output := .str "Domain-specific content framework" },
       { step_number := .pyint 4, title := .str "Content Generation"
         description := .str "Generate the content", expected_output := .str "Generated content" },
       { step_number := .pyint 5, title := .str "Validation & Quality Check"
         description := .str "Validate output", expected_output := .str "Validated deliverable" }]
    else extracted
  mkReasoningPlan steps (.list (skills.map .str))
    (.list (ctx.defaultCapabilities.map .str)) (.str ctx.detectedDomain)

/-- The body of the `try` block of `_parse_reasoning_plan`
(`preact.py:1296-1366`) applied to the successfully decoded JSON object
`plan_data`; the `.error` arms propagate the uncaught Python exceptions
(`json.JSONDecodeError` is the only exception the source catches). -/
def parsePlanData (ctx : PlanCtx) (plan_data : List (String × PyVal)) :
    Except PyErr ReasoningPlan :=
  match parseSteps (pyGet plan_data "steps" (.list [])) with
  | .error e => .error e
  | .ok steps =>
    let skills0 := pyGet plan_data "domain_skills" (.list (ctx.defaultSkills.map .str))
    match pyContains "Instructional Designer" skills0 with
    | .error e => .error e
    | .ok hasID =>
      match if hasID then .ok skills0 else pyPrepend (.str "Instructional Designer") skills0 with
      | .error e => .error e
      | .ok skills =>
        let caps := pyGet plan_data "domain_capabilities" (.list (ctx.defaultCapabilities.map .str))
        match parseQuestions (pyGet plan_data "clarification_questions" (.list [])) with
        | .error e => .error e
        | .ok _ =>
          let dom := pyGet plan_data "detected_domain" (.str ctx.detectedDomain)
          .ok (mkReasoningPlan steps skills caps dom)

/-- `PreActAgent._parse_reasoning_plan`: extract the first braced block,
JSON-decode it (`jsonDecode` is the `json.loads` oracle, `none` meaning
`JSONDecodeError`, which the source catches), run the typed extraction;
any decode failure degrades to `_create_default_plan`.  Both fresh plans
and refined plans (`refine_plan`, `preact.py:1084`) go through this
function. -/
def parseReasoningPlan (jsonDecode : String → Option (List (String × PyVal)))
    (ctx : PlanCtx) (response : String) : Except PyErr ReasoningPlan :=
  match extractBraced response with
  | none => .ok (createDefaultPlan ctx response)
  | some jtext =>
      match jsonDecode jtext with
      | none => .ok (createDefaultPlan ctx response)
      | some plan_data => parsePlanData ctx plan_data

end PreAct

section ReActParse
/-! ## `ReActAgent._parse_response` (`react.py:485-510`)

Regex-based extraction of `THOUGHT` / `ACTION` / action input from a
free-text model response, ported at the character-list level with the
Python `re` backtracking behaviour of the two patterns. -/

/-- Python `\s` (ASCII whitespace as produced by the model strings we
quantify over). -/
def isPySpace (c : Char) : Bool :=
  c = ' ' ∨ c = '\t' ∨ c = '\n' ∨ c = '\r' ∨ c = '\x0b' ∨ c = '\x0c'

/-- Python `\w` (word character; ASCII range, which covers the action
vocabulary). -/
def isWordChar (c : Char) : Bool := c.isAlphanum ∨ c = '_'

/-- Case-insensitive literal prefix match. -/
def ciPrefix : List Char → List Char → Bool
  | [], _ => true
  | _ :: _, [] => false
  | p :: ps, c :: cs => (p.toLower = c.toLower) ∧ ciPrefix ps cs

/-- `.strip()`: drop ASCII whitespace from both ends. -/
def pyStrip (s : String) : String :=
  String.mk (((s.data.dropWhile isPySpace).reverse.dropWhile isPySpace).reverse)

/-- `.strip(chars)`: drop the given characters from both ends. -/
def pyStripChars (chars : List Char) (s : String) : String :=
  String.mk (((s.data.dropWhile (chars.contains ·)).reverse.dropWhile (chars.contains ·)).reverse)

/-- `s.upper()`. -/
def pyUpper (s : String) : String := String.mk (s.data.map Char.toUpper)

/-- Whether one of the lookahead literals starts here
(case-insensitively). -/
def markerAt (markers : List String) (cs : List Char) : Bool :=
  markers.any (fun m => ciPrefix m.data cs)

/-- The lazy capture `\s*(.+?)(?=M1|M2|$)` (DOTALL) applied to `cs`:
`none` when `cs` is empty (`.+?` needs a character); otherwise the
captured text after `.strip()`.  The maximal-munch `\s*` means a marker
hidden inside the leading whitespace does not stop the capture; after
the whitespace the capture ends at the first marker occurrence at
offset ≥ 1, or at the end of input. -/
def lazyCaptureStripped (markers : List String) (cs : List Char) : Option String :=
  if cs.isEmpty then none
  else
    let rest := cs.dropWhile isPySpace
    if rest.isEmpty then some ""
    else
      let rec firstStop : Nat → List Char → Nat
        | n, [] => n
        | n, l@(_ :: tl) => if n ≥ 1 ∧ markerAt markers l then n else firstStop (n + 1) tl
      some (pyStrip (String.mk (rest.take (firstStop 0 rest))))

/-- One attempt of the first `ACTION` pattern
(`ACTION:\s*(\w+)\s*[-:]\s*(.+?)(?=THOUGHT:|OBSERVATION:|$)`) at a
position just past a case-insensitive `ACTION:` literal. -/
def attemptAction1 (cs : List Char) : Option (String × String) :=
  let cs1 := cs.dropWhile isPySpace
  let w := cs1.takeWhile isWordChar
  if w.isEmpty then none
  else
    let cs2 := (cs1.drop w.length).dropWhile isPySpace
    match cs2 with
    | sep :: cs3 =>
        if sep = '-' ∨ sep = ':' then
          match lazyCaptureStripped ["THOUGHT:", "OBSERVATION:"] cs3 with
          | some cap => some (String.mk w, cap)
          | none => none
        else none
    | [] => none

/-- `re.search` scan for the first pattern: try each case-insensitive
occurrence of `ACTION:` left to right until one attempt succeeds. -/
def scanAction1 : List Char → Option (String × String)
  | [] => none
  | cs@(_ :: rest) =>
      if ciPrefix "ACTION:".data cs then
        match attemptAction1 (cs.drop 7) with
        | some r => some r
        | none => scanAction1 rest
      else scanAction1 rest

/-- `re.search` scan for the fallback pattern `ACTION:\s*(\w+)`: returns
the action word and the remainder of the text after it
(`response[match.end():]`). -/
def scanAction2 : List Char → Option (String × List Char)
  | [] => none
  | cs@(_ :: rest) =>
      if ciPrefix "ACTION:".data cs then
        let cs1 := (cs.drop 7).dropWhile isPySpace
        let w := cs1.takeWhile isWordChar
        if w.isEmpty then scanAction2 rest
        else some (String.mk w, cs1.drop w.length)
      else scanAction2 rest

/-- Case-sensitive `s.split(sep)[0]`. -/
def takeBeforeLit (sep : List Char) : List Char → List Char
  | [] => []
  | cs@(c :: rest) =>
      if sep.isPrefixOf cs then [] else c :: takeBeforeLit sep rest

/-- `THOUGHT` extraction
(`THOUGHT:\s*(.+?)(?=ACTION:|$)`, case-insensitive, DOTALL). -/
def scanThought : List Char → Option String
  | [] => none
  | cs@(_ :: rest) =>
      if ciPrefix "THOUGHT:".data cs then
        match lazyCaptureStripped ["ACTION:"] (cs.drop 8) with
        | some cap => some cap
        | none => scanThought rest
      else scanThought rest

/-- `ReActAgent._parse_response`: returns `(thought, action,
action_input)`; an empty string means "not found" as in the source. -/
def parseResponse (response : String) : String × String × String :=
  let cs := response.data
  let thought := (scanThought cs).getD ""
  match scanAction1 cs with
  | some (a, inp) => (thought, a, inp)
  | none =>
      match scanAction2 cs with
      | some (a, after) =>
          let inp := pyStripChars [' ', '-', ':', '\n']
            (String.mk (takeBeforeLit "OBSERVATION".data (takeBeforeLit "THOUGHT".data after)))
          (thought, a, inp)
      | none => (thought, "", "")

end ReActParse

section ReActLoop
/-! ## ExecutionLoop (`ReActAgent.run`, `react.py:113-323`)

The Thought→Action→Observation loop.  LLM and retrieval calls are
oracles (`respond` is the per-iteration model response; `actionOut` the
result of the single inner LLM/service call an action handler makes in
that iteration).  Conversation history and observation strings reach the
model only through the prompt, which the oracle already abstracts, so
they are not tracked; the tracked state is exactly what the final
artifact and the claims depend on. -/

/-- The slice of `context.metadata["reasoning_plan"]` (a
`ReasoningPlan.to_dict()` result) that `ReActAgent.run` and the
template-mode action handlers read. -/
structure RPlanMeta where
  steps : List PyVal
  domain_skills : List PyVal
  domain_capabilities : List PyVal

/-- External collaborators of the execution loop. -/
structure Oracle where
  respond : Nat → String
  actionOut : Nat → String
  decodeObj : String → Option (List (String × PyVal))
  decodeArr : String → Option (List PyVal)
  fallbackOut : String

/-- Mutable loop state (`iteration`, `final_output`,
`context.metadata["generated_content"]`, `completed_steps`,
`context.metadata["generated_skills"]`,
`context.metadata["domain_template"]` / `template_valid`), plus two
markers recording which exit path produced the artifact. -/
structure ExecState where
  iteration : Nat
  finalOutput : String
  generatedContent : List String
  completedSteps : Nat
  generatedSkills : Option (List PyVal)
  domainTemplate : Option (List (String × PyVal))
  templateValid : Bool
  finishedByFinal : Bool
  fallbackFired : Bool

def ExecState.init : ExecState :=
  { iteration := 0, finalOutput := "", generatedContent := [], completedSteps := 0
    generatedSkills := none, domainTemplate := none, templateValid := false
    finishedByFinal := false, fallbackFired := false }

/-- `skills.remove("Instructional Designer")`: drop the first matching
element. -/
def removeFirstID : List PyVal → List PyVal
  | [] => []
  | x :: xs => if pyEqStr "Instructional Designer" x then xs else x :: removeFirstID xs

/-- `_action_generate_skills` (`react.py:717-760`): parse a JSON array
out of the inner LLM result and force the sentinel skill to index 0
(prepend when absent, move to front when present elsewhere); on decode
failure fall back to sentinel-plus-base-skills. -/
def generateSkillsAction (o : Oracle) (i : Nat) (meta : RPlanMeta) (st : ExecState) : ExecState :=
  let result := o.actionOut i
  match (extractBracketed result).bind o.decodeArr with
  | some skills =>
      let skills2 :=
        if !(skills.any (pyEqStr "Instructional Designer")) then
          PyVal.str "Instructional Designer" :: skills
        else if !(skills.head?.elim false (pyEqStr "Instructional Designer")) then
          PyVal.str "Instructional Designer" :: removeFirstID skills
        else skills
      { st with generatedSkills := some skills2 }
  | none =>
      { st with generatedSkills := some (PyVal.str "Instructional Designer" :: meta.domain_skills) }

/-- `_action_build_template` (`react.py:659-715`): store the decoded
template when the inner result parses as JSON, otherwise append the raw
result to `generated_content` (setting `template_valid = False` only on
a decode error of an extracted block, as in the source). -/
def buildTemplateAction (o : Oracle) (i : Nat) (st : ExecState) : ExecState :=
  let result := o.actionOut i
  match extractBraced result with
  | some jt =>
      match o.decodeObj jt with
      | some t => { st with domainTemplate := some t, templateValid := true }
      | none =>
          { st with templateValid := false
                    generatedContent := st.generatedContent ++ [result] }
  | none => { st with generatedContent := st.generatedContent ++ [result] }

/-- `_execute_action` (`react.py:512-531`): dispatch by upper-cased
action name.  `SEARCH` / `ANALYZE` / `REMEMBER` / `GENERATE_CAPABILITIES`
and unknown actions only produce an observation string or write to
external memory and leave the tracked state unchanged; `GENERATE`
appends the inner LLM output to `generated_content`. -/
def executeAction (o : Oracle) (i : Nat) (meta : RPlanMeta)
    (action : String) (st : ExecState) : ExecState :=
  let au := pyUpper action
  if au = "GENERATE" then
    { st with generatedContent := st.generatedContent ++ [o.actionOut i] }
  else if au = "BUILD_TEMPLATE" then buildTemplateAction o i st
  else if au = "GENERATE_SKILLS" then generateSkillsAction o i meta st
  else st

/-- One pass of the `while iteration < dynamic_max_iterations` loop with
the given remaining budget (`fuel = dynamic_max_iterations - iteration`).
A parsed `FINAL_ANSWER` breaks with the action input (or the raw
response) as the artifact; any other parsed action is dispatched, a
`GENERATE` also counting one completed step; a response with no parsed
action is appended to `final_output` verbatim (`react.py:238-241`). -/
def runLoop (o : Oracle) (meta : RPlanMeta) : Nat → ExecState → ExecState
  | 0, st => st
  | fuel + 1, st =>
      let i := st.iteration + 1
      let response := o.respond i
      let (_, action, actionInput) := parseResponse response
      if action ≠ "" ∧ pyUpper action = "FINAL_ANSWER" then
        { st with iteration := i
                  finalOutput := if actionInput ≠ "" then actionInput else response
                  finishedByFinal := true }
      else if action ≠ "" then
        let st1 := executeAction o i meta action { st with iteration := i }
        let st2 :=
          if pyUpper action = "GENERATE" then { st1 with completedSteps := st1.completedSteps + 1 }
          else st1
        runLoop o meta fuel st2
      else
        runLoop o meta fuel { st with iteration := i, finalOutput := st.finalOutput ++ response }

/-- `dynamic_max_iterations = max(num_steps * 2 + 3,
settings.react_max_iterations)` where `num_steps = len(steps) if steps
else 3` (`react.py:137-138`); `floor` is the configured
`react_max_iterations`. -/
def dynamicMaxIterations (meta : RPlanMeta) (floor : Nat) : Nat :=
  let numSteps := if meta.steps.isEmpty then 3 else meta.steps.length
  max (numSteps * 2 + 3) floor

/-- `ReActAgent.run` (loop plus the post-loop fallback compilation,
`react.py:243-279`): when the loop ends with an empty `final_output`,
use the joined `generated_content` if any was produced, else one direct
LLM call (`_generate_fallback_response`). -/
def runReAct (o : Oracle) (meta : RPlanMeta) (floor : Nat) : ExecState :=
  let dynMax := dynamicMaxIterations meta floor
  let st := runLoop o meta dynMax ExecState.init
  if st.finalOutput = "" then
    if st.generatedContent = [] then
      { st with finalOutput := o.fallbackOut, fallbackFired := true }
    else
      { st with finalOutput := String.intercalate "\n\n" st.generatedContent }
  else st

end ReActLoop

section ReFlect
/-! ## ValidationEngine (`backend/agents/reflect.py`) -/

/-- The result record built by
`ReFlectAgent._validate_template_structure` (`reflect.py:183-194`);
`skills_present` is omitted (it merely echoes the input skills value). -/
structure TemplateValidation where
  is_valid : Bool
  instructional_designer_present : Bool
  skills_missing : List String
  has_unique_keys : Bool
  duplicate_keys : List String
  schema_valid : Bool
  schema_issues : List String
  overall_score : Int
  critical_issues : List String

def TemplateValidation.init : TemplateValidation :=
  { is_valid := true, instructional_designer_present := false, skills_missing := []
    has_unique_keys := true, duplicate_keys := [], schema_valid := true
    schema_issues := [], overall_score := 10, critical_issues := [] }

/-- Remove every occurrence of a (non-empty) literal substring
(`str.replace(pat, "")`), with explicit structural fuel (each step
consumes at least one character, so `cs.length` fuel suffices). -/
def removeAllSubAux (p0 : Char) (prest : List Char) : Nat → List Char → List Char
  | 0, _ => []
  | _, [] => []
  | fuel + 1, cs@(c :: rest) =>
      if (p0 :: prest).isPrefixOf cs then removeAllSubAux p0 prest fuel (rest.drop prest.length)
      else c :: removeAllSubAux p0 prest fuel rest

/-- `str.replace(pat, "")` for a non-empty literal `pat`. -/
def removeAllSub (p0 : Char) (prest : List Char) (cs : List Char) : List Char :=
  removeAllSubAux p0 prest cs.length cs

/-- The accepting condition of `uuid.UUID(hex=s)`: strip `urn:` /
`uuid:` markers, surrounding braces and dashes, then demand 32
hexadecimal digits. -/
def uuidAccepts (s : String) : Bool :=
  let cs := removeAllSub 'u' "uid:".data (removeAllSub 'u' "rn:".data s.data)
  let cs := (cs.dropWhile (fun c => c = '{' ∨ c = '}')).reverse.dropWhile (fun c => c = '{' ∨ c = '}') |>.reverse
  let cs := cs.filter (· ≠ '-')
  cs.length = 32 ∧ cs.all (fun c => c.isDigit ∨ ('a' ≤ c ∧ c ≤ 'f') ∨ ('A' ≤ c ∧ c ≤ 'F'))

/-- The `try: uuid.UUID(template_id)` check (`reflect.py:268-273`):
`ValueError` / `TypeError` are caught (`false`), but a non-string,
non-`None` argument raises an uncaught `AttributeError` inside `uuid`. -/
def uuidCheck : PyVal → Except PyErr Bool
  | .str s => .ok (uuidAccepts s)
  | .pynone => .ok false
  | _ => .error .attributeError

/-- The duplicate-key scan of `reflect.py:236-242`: walk the key list
with a `seen` set, recording every key already seen. -/
def dupScan (seen : List String) : List String → List String
  | [] => []
  | k :: ks =>
      if seen.contains k then k :: dupScan (k :: seen) ks
      else dupScan (k :: seen) ks

/-- The domain unwrapping of `reflect.py:209-214`: a single-key dict
whose value is a dict is unwrapped to that value. -/
def unwrapTemplate (tfields : List (String × PyVal)) : List (String × PyVal) :=
  match tfields with
  | [(_, .dict inner)] => inner
  | _ => tfields

/-- One pass of the required-field loop of `reflect.py:252-257`. -/
def requiredFieldStep (domain_template : List (String × PyVal))
    (v : TemplateValidation) (f : String) : TemplateValidation :=
  if pyHasKey domain_template f then v
  else { v with schema_issues := v.schema_issues ++ ["Missing required field: " ++ f]
                schema_valid := false
                overall_score := v.overall_score - 1 }

/-- The metadata-structure check of `reflect.py:259-265` (adds schema
issues only). -/
def metadataCheck (domain_template : List (String × PyVal))
    (v : TemplateValidation) : TemplateValidation :=
  match pyGet domain_template "metadata" (.dict []) with
  | .dict m =>
      let v1 := if pyHasKey m "created_at" then v
                else { v with schema_issues := v.schema_issues ++ ["metadata missing created_at"] }
      if pyHasKey m "generated_by" then v1
      else { v1 with schema_issues := v1.schema_issues ++ ["metadata missing generated_by"] }
  | _ => v

/-- The Instructional-Designer check of `reflect.py:216-226`: sets
`instructional_designer_present` for a list-valued skills field
(recording a critical issue when the sentinel is absent), a schema issue
otherwise. -/
def skillsCheck (skillsVal : PyVal) : TemplateValidation :=
  match skillsVal with
  | .list l =>
      if l.any (pyEqStr "Instructional Designer") then
        { TemplateValidation.init with instructional_designer_present := true }
      else
        { TemplateValidation.init with
            critical_issues := ["'Instructional Designer' skill is MISSING"]
            overall_score := 10 - 3 }
  | _ => { TemplateValidation.init with
             schema_issues := ["skills is not an array"]
             overall_score := 10 - 2 }

/-- The unique-capability-keys check of `reflect.py:233-249`: scan the
dict keys for duplicates, or record a schema issue when `capabilities`
is not an object. -/
def capsCheck (capsVal : PyVal) (v : TemplateValidation) : TemplateValidation :=
  match capsVal with
  | .dict d =>
      let dups := dupScan [] (d.map Prod.fst)
      if dups.isEmpty then v
      else { v with has_unique_keys := false, duplicate_keys := dups
                    critical_issues := v.critical_issues ++ ["Duplicate keys found"]
                    overall_score := v.overall_score - 2 }
  | _ => { v with schema_issues := v.schema_issues ++ ["capabilities is not an object"]
                  overall_score := v.overall_score - 2 }

/-- `ReFlectAgent._validate_template_structure` (`reflect.py:178-285`):
the programmatic structural validator.  `expectedSkills` is
`reasoning_plan["domain_skills"]` from the context (string skills, as
constructed by the planner).  `.error` marks the uncaught exceptions the
source can raise (membership test against a non-container skills value;
`uuid.UUID` on a non-string id). -/
def validateTemplateStructure (template_data : PyVal) (expectedSkills : List String) :
    Except PyErr TemplateValidation :=
  match template_data with
  | .dict tfields =>
      let domain_template := unwrapTemplate tfields
      -- 1. Instructional Designer check, then the expected-skills loop
      -- (`skill not in skills` on the raw value, which can raise)
      match expectedSkills.filterM
          (fun sk => (pyContains sk (pyGet domain_template "skills" (.list []))).map (fun b => !b)) with
      | .error e => .error e
      | .ok missing =>
          let v2 := { skillsCheck (pyGet domain_template "skills" (.list []))
                        with skills_missing := missing }
          -- 2. unique capability keys
          let v3 := capsCheck (pyGet domain_template "capabilities" (.dict [])) v2
          -- 3. schema compliance: required top-level fields
          let v4 := ["id", "domain", "metadata", "skills", "capabilities"].foldl
                      (requiredFieldStep domain_template) v3
          -- metadata structure (issues only, no score / validity change)
          let v5 := metadataCheck domain_template v4
          -- UUID format (can raise on non-string ids)
          match uuidCheck (pyGet domain_template "id" (.str "")) with
          | .error e => .error e
          | .ok idOk =>
              let v6 :=
                if idOk then v5
                else { v5 with schema_issues := v5.schema_issues ++ ["id is not a valid UUID v4"]
                               overall_score := v5.overall_score - 1 }
              -- final validity: a conjunctive gate (`reflect.py:276-281`)
              .ok { v6 with
                      is_valid := v6.instructional_designer_present && v6.has_unique_keys &&
                                  v6.schema_valid && v6.critical_issues.isEmpty
                      overall_score := max 0 (min 10 v6.overall_score) }
  | _ => .ok { TemplateValidation.init with
                 is_valid := false, overall_score := 0
                 critical_issues := ["Template is not a valid dictionary"] }

/-- The critique scores as consumed by `ReFlectAgent.run`
(`reflect.py:400-402`): `overall = scores.get("overall", 7)` and
`needs_improvement = scores.get("needs_improvement", True)` after
`_parse_critique_scores`. -/
structure CritiqueScores where
  overall : Int
  needs_improvement : Bool

/-- Result of the conditional improve stage; `ran` records whether the
improve branch executed (its status event fired and the improve LLM call
was made) and `replaced` whether the rewrite displaced the artifact. -/
structure ImproveResult where
  ran : Bool
  replaced : Bool
  finalOutput : String

/-- Stage 2 of `ReFlectAgent.run` (`reflect.py:428-461`): the improve
stage runs iff `needs_improvement or overall_score < 8`; the rewrite
(`improved`, the improve-call LLM output) replaces the artifact iff it
is non-empty and `len(improved) > len(react_output) * 0.5` — stated here
over integers as `2 * |improved| > |react_output|`, which is exact
(character counts are far below 2^53, so the float product is exact). -/
def improveStage (scores : CritiqueScores) (reactOutput improved : String) : ImproveResult :=
  if scores.needs_improvement ∨ scores.overall < 8 then
    if improved ≠ "" ∧ 2 * improved.length > reactOutput.length then
      { ran := true, replaced := true, finalOutput := improved }
    else
      { ran := true, replaced := false, finalOutput := reactOutput }
  else
    { ran := false, replaced := false, finalOutput := reactOutput }

end ReFlect

section PendingPlanStore
/-! ## PendingPlanStore (`backend/main.py:61-114`)

The dual-tier pending-plan cache: `pending_plans` (an in-process dict)
backed by the `pending_plans` MongoDB collection, documents
`\x7b"session_id": sid, "plan_data": plan_data\x7d` upserted by session
id.  The durable tier is modelled as a keyed map (a reachable healthy
store; the source logs and swallows store errors). -/

/-- A durable `pending_plans` document. -/
structure PendingDoc (α : Type) where
  session_id : String
  plan_data : α

/-- The two tiers. -/
structure StoreState (α : Type) where
  memory : List (String × α)
  durable : List (String × PendingDoc α)

/-- Keyed upsert (dict assignment / `update_one(..., upsert=True)`). -/
def upsertKeyed {β : Type} (k : String) (v : β) (l : List (String × β)) : List (String × β) :=
  (k, v) :: l.filter (fun p => p.1 ≠ k)

/-- `save_pending_plan` (`main.py:71-84`): write to memory, then upsert
the durable document. -/
def savePendingPlan {α : Type} (st : StoreState α) (sid : String) (pd : α) : StoreState α :=
  { memory := upsertKeyed sid pd st.memory
    durable := upsertKeyed sid { session_id := sid, plan_data := pd } st.durable }

/-- `get_pending_plan` (`main.py:87-103`): memory first, else
read-through from the durable tier (`doc.get("plan_data")`), caching the
result in memory. -/
def getPendingPlan {α : Type} (st : StoreState α) (sid : String) : Option α × StoreState α :=
  match st.memory.lookup sid with
  | some pd => (some pd, st)
  | none =>
      match st.durable.lookup sid with
      | some doc => (some doc.plan_data, { st with memory := upsertKeyed sid doc.plan_data st.memory })
      | none => (none, st)

/-- `delete_pending_plan` (`main.py:106-114`): remove from both tiers. -/
def deletePendingPlan {α : Type} (st : StoreState α) (sid : String) : StoreState α :=
  { memory := st.memory.filter (fun p => p.1 ≠ sid)
    durable := st.durable.filter (fun p => p.1 ≠ sid) }

/-- A process restart: the in-memory cache is empty, the durable tier
survives. -/
def freshProcess {α : Type} (st : StoreState α) : StoreState α :=
  { st with memory := [] }

end PendingPlanStore

section SSE
/-! ## EventBus / SSE stream (`main.py:757-810`)

The `event_generator` loop consumes the per-session queue in order and
forwards each event; modelled over the queued event sequence with a
connected client (heartbeat frames on idle timeouts do not change which
queue events are delivered or when the stream closes). -/

/-- The fields of a queued event frame that the termination rule reads
(`event.get("event")`, `event.get("agent")`). -/
structure SseEvent where
  agent : String
  kind : String

/-- The break conditions of `main.py:795-800`: an `error` event from any
agent, or a `complete` event whose agent is `system`. -/
def sseTerminal (e : SseEvent) : Bool :=
  e.kind == "error" || (e.kind == "complete" && e.agent == "system")

/-- The events delivered before the stream closes: every event up to and
including the first terminal one (all of them if none is terminal and
the client keeps listening). -/
def sseDeliver : List SseEvent → List SseEvent
  | [] => []
  | e :: rest => if sseTerminal e then [e] else e :: sseDeliver rest

end SSE

section Fixtures
/-! ## Concrete fixtures used by counterexamples and witnesses -/

/-- A planning context as `PreActAgent.run` builds it for the
`education` domain. -/
def eduCtx : PlanCtx :=
  { detectedDomain := "education"
    defaultSkills := getDomainSkills "education"
    defaultCapabilities := getDomainCapabilities "education"
    query := "Create a course"
    domain := "education" }

/-- A model response whose plan JSON lists the sentinel skill second. -/
def c1resp : String := "\x7b\"domain_skills\": [\"Subject Expert\", \"Instructional Designer\"]\x7d"

/-- The `json.loads` result on the extracted block of `c1resp`. -/
def c1dec : String → Option (List (String × PyVal)) :=
  fun s => if s = c1resp then
    some [("domain_skills", PyVal.list [PyVal.str "Subject Expert", PyVal.str "Instructional Designer"])]
  else none

/-- A model response whose plan JSON has an integer `steps` field. -/
def c3resp : String := "\x7b\"steps\": 0\x7d"

/-- The `json.loads` result on the extracted block of `c3resp`. -/
def c3dec : String → Option (List (String × PyVal)) :=
  fun s => if s = c3resp then some [("steps", PyVal.pyint 0)] else none

/-- A model response whose plan JSON repeats a capability key. -/
def c4resp : String := "\x7b\"domain_capabilities\": [\"a\", \"a\"]\x7d"

/-- The `json.loads` result on the extracted block of `c4resp`. -/
def c4dec : String → Option (List (String × PyVal)) :=
  fun s => if s = c4resp then
    some [("domain_capabilities", PyVal.list [PyVal.str "a", PyVal.str "a"])]
  else none

/-- A model that never emits `THOUGHT:`/`ACTION:` markers and whose
direct-answer fallback output is `"FB"`. -/
def spinOracle : Oracle :=
  { respond := fun _ => "keep going"
    actionOut := fun _ => ""
    decodeObj := fun _ => none
    decodeArr := fun _ => none
    fallbackOut := "FB" }

/-- A reasoning-plan metadata record with an empty step list. -/
def metaZero : RPlanMeta := { steps := [], domain_skills := [], domain_capabilities := [] }

/-- A reasoning-plan metadata record with one step. -/
def metaOne : RPlanMeta :=
  { steps := [PyVal.dict []], domain_skills := [], domain_capabilities := [] }

/-- A schema-complete template carrying the sentinel skill and distinct
capability keys. -/
def okTemplate : List (String × PyVal) :=
  [("id", .str "123e4567-e89b-12d3-a456-426614174000"), ("domain", .str "education"),
   ("metadata", .dict [("created_at", .str "2024-01-01"), ("generated_by", .str "react")]),
   ("skills", .list [.str "Instructional Designer", .str "Curriculum Designer"]),
   ("capabilities", .dict [("learning_objectives", .str "x"), ("assessment_criteria", .str "y")])]

end Fixtures

/-! ## Theorems -/

/-- C6: the improve stage of validation runs exactly when
`needs_improvement` is true or the overall critique score is below 8;
when it runs, the rewritten text replaces the artifact only if its
length is at least half the original artifact's length (the source gate
is strictly-more-than-half, which implies it), and whenever the rewrite
is shorter than half the original — or the stage does not replace — the
original artifact is kept unchanged. -/
theorem improve_stage_gating (scores : CritiqueScores) (reactOutput improved : String) :
    ((improveStage scores reactOutput improved).ran = true ↔
      scores.needs_improvement = true ∨ scores.overall < 8)
    ∧ ((improveStage scores reactOutput improved).replaced = true →
        (improveStage scores reactOutput improved).finalOutput = improved ∧
        2 * improved.length ≥ reactOutput.length)
    ∧ (2 * improved.length < reactOutput.length →
        (improveStage scores reactOutput improved).finalOutput = reactOutput)
    ∧ ((improveStage scores reactOutput improved).replaced = false →
        (improveStage scores reactOutput improved).finalOutput = reactOutput) := by
  unfold improveStage
  by_cases h1 : scores.needs_improvement = true ∨ scores.overall < 8
  · rw [if_pos h1]
    by_cases h2 : improved ≠ "" ∧ 2 * improved.length > reactOutput.length
    · rw [if_pos h2]
      exact ⟨by simp [h1], fun _ => ⟨rfl, Nat.le_of_lt h2.2⟩,
             fun hlt => absurd h2.2 (by omega), by simp⟩
    · rw [if_neg h2]
      exact ⟨by simp [h1], by simp, fun _ => rfl, fun _ => rfl⟩
  · rw [if_neg h1]
    exact ⟨by simpa using h1, by simp, fun _ => rfl, fun _ => rfl⟩

/-- C6 witness: at concrete inputs — a critique demanding improvement
with a rewrite shorter than half the original keeps the original. -/
theorem improve_stage_gating_witness :
    (improveStage { overall := 3, needs_improvement := true } "abcdef" "ab").finalOutput = "abcdef" :=
  (improve_stage_gating { overall := 3, needs_improvement := true } "abcdef" "ab").2.2.1 (by decide)

/-- C7: a `save_pending_plan` followed by a process restart (empty
in-memory cache) followed by `get_pending_plan` returns exactly the
saved record — the durable tier alone reconstructs it. -/
theorem pending_plan_roundtrip_fresh_process {α : Type} (st : StoreState α) (sid : String) (pd : α) :
    (getPendingPlan (freshProcess (savePendingPlan st sid pd)) sid).1 = some pd := by
  simp [getPendingPlan, freshProcess, savePendingPlan, upsertKeyed, List.lookup]

/-- The SSE generator delivers exactly the events up to and including
the first terminal one (error from any agent, or system complete). -/
theorem sseDeliver_take (es : List SseEvent) :
    sseDeliver es =
      es.takeWhile (fun e => !sseTerminal e) ++ (es.dropWhile (fun e => !sseTerminal e)).take 1 := by
  induction es with
  | nil => rfl
  | cons e rest ih =>
      by_cases h : sseTerminal e
      · simp [sseDeliver, h, List.takeWhile_cons, List.dropWhile_cons]
      · simp [sseDeliver, h, List.takeWhile_cons, List.dropWhile_cons, ih]

/-- C8: the SSE stream terminates exactly on the first event that is an
`error` (any agent) or a `complete` with agent `system`; an
executor `complete` is not terminal, so a sequence of non-terminal
events ending in executor-complete followed by system-complete is
delivered in full: the stream closes exactly after the second of the
two. -/
theorem sse_stream_termination (pre : List SseEvent)
    (hpre : ∀ e ∈ pre, sseTerminal e = false) :
    (∀ es : List SseEvent, sseDeliver es =
      es.takeWhile (fun e => !sseTerminal e) ++ (es.dropWhile (fun e => !sseTerminal e)).take 1)
    ∧ sseTerminal { agent := "executor", kind := "complete" } = false
    ∧ sseTerminal { agent := "system", kind := "complete" } = true
    ∧ sseDeliver (pre ++ [{ agent := "executor", kind := "complete" },
                          { agent := "system", kind := "complete" }])
        = pre ++ [{ agent := "executor", kind := "complete" },
                  { agent := "system", kind := "complete" }] := by
  refine ⟨sseDeliver_take, rfl, rfl, ?_⟩
  induction pre with
  | nil => rfl
  | cons e rest ih =>
      have he : sseTerminal e = false := hpre e (List.mem_cons_self e rest)
      have hrest : ∀ x ∈ rest, sseTerminal x = false :=
        fun x hx => hpre x (List.mem_cons_of_mem e hx)
      simp [sseDeliver, he, ih hrest]

/-- C8 witness: a concrete stream — two planner status events, an
executor complete, then a system complete — is delivered whole. -/
theorem sse_stream_termination_witness :
    sseDeliver [{ agent := "planner", kind := "status" },
                { agent := "executor", kind := "complete" },
                { agent := "system", kind := "complete" }]
      = [{ agent := "planner", kind := "status" },
         { agent := "executor", kind := "complete" },
         { agent := "system", kind := "complete" }] :=
  (sse_stream_termination [{ agent := "planner", kind := "status" }]
    (by intro e he; simp at he; subst he; rfl)).2.2.2

/-- A value that Python reports as containing the sentinel-skill string
is truthy (so the `or`-default in `ReasoningPlan.__init__` keeps it). -/
theorem pyContainsID_truthy (v : PyVal)
    (h : pyContains "Instructional Designer" v = .ok true) : v.truthy = true := by
  cases v with
  | list xs =>
      simp only [pyContains, Except.ok.injEq] at h
      cases xs with
      | nil => simp at h
      | cons a l => simp [PyVal.truthy]
  | str t =>
      simp only [pyContains, Except.ok.injEq] at h
      by_cases ht : t = ""
      · subst ht
        simp [strContains, charsContain] at h
      · simp [PyVal.truthy, ht]
  | dict fs =>
      simp only [pyContains, Except.ok.injEq] at h
      cases fs with
      | nil => simp at h
      | cons a l => simp [PyVal.truthy]
  | pynone => simp [pyContains] at h
  | pybool b => simp [pyContains] at h
  | pyint n => simp [pyContains] at h

/-- Python membership of a string in a list of strings lifted to
`PyVal`. -/
theorem any_pyEqStr_map_str (l : List String) (s : String) :
    (l.map PyVal.str).any (pyEqStr s) = l.contains s := by
  induction l with
  | nil => rfl
  | cons a t ih => simp only [List.map_cons, List.any_cons, pyEqStr, ih, List.contains_cons]

/-- The deterministic fallback plan always carries the sentinel skill in
`domain_skills`. -/
theorem pyOr_list_sentinel (skills : List String)
    (hmem : skills.contains "Instructional Designer" = true) (w : PyVal) :
    pyContains "Instructional Designer" (pyOr (.list (skills.map .str)) w) = .ok true := by
  cases skills with
  | nil => simp [List.contains] at hmem
  | cons a t =>
      have h1 : pyOr (.list ((a :: t).map .str)) w = .list ((a :: t).map .str) := by
        simp [pyOr, PyVal.truthy]
      rw [h1]
      simp only [pyContains, any_pyEqStr_map_str, Except.ok.injEq]
      exact hmem

theorem createDefaultPlan_sentinel (ctx : PlanCtx) (raw : String) :
    pyContains "Instructional Designer" (createDefaultPlan ctx raw).domain_skills = .ok true := by
  have hds : (createDefaultPlan ctx raw).domain_skills
      = pyOr (.list ((if ctx.defaultSkills.contains "Instructional Designer"
                      then ctx.defaultSkills
                      else "Instructional Designer" :: ctx.defaultSkills).map .str))
             (.list [.str "Instructional Designer"]) := rfl
  rw [hds]
  by_cases hc : ctx.defaultSkills.contains "Instructional Designer"
  · rw [if_pos hc]; exact pyOr_list_sentinel _ hc _
  · rw [if_neg hc]
    exact pyOr_list_sentinel _ (by simp [List.contains_cons]) _

/-- C1 (amended): every plan produced by `_parse_reasoning_plan` — fresh
or refined, parsed or fallback — has `"Instructional Designer"` as a
member of `domain_skills` (Python membership); it is prepended when
absent, but it is not moved to index 0 when the model lists it
elsewhere (the move-to-front exists only in the executor's
`GENERATE_SKILLS` parser, see `generateSkillsAction`). -/
theorem parse_plan_sentinel_membership (dec : String → Option (List (String × PyVal)))
    (ctx : PlanCtx) (resp : String) (p : ReasoningPlan)
    (h : parseReasoningPlan dec ctx resp = .ok p) :
    pyContains "Instructional Designer" p.domain_skills = .ok true := by
  unfold parseReasoningPlan at h
  split at h
  · cases h
    exact createDefaultPlan_sentinel ctx resp
  · split at h
    · cases h
      exact createDefaultPlan_sentinel ctx resp
    · rename_i plan_data hd
      unfold parsePlanData at h
      cases hsteps : parseSteps (pyGet plan_data "steps" (.list [])) with
      | error e => simp only [hsteps] at h; exact Except.noConfusion h
      | ok steps =>
        simp only [hsteps] at h
        cases hid : pyContains "Instructional Designer"
            (pyGet plan_data "domain_skills" (.list (ctx.defaultSkills.map PyVal.str))) with
        | error e => simp only [hid] at h; exact Except.noConfusion h
        | ok hasID =>
          simp only [hid] at h
          cases hasID with
          | true =>
            simp only [if_true] at h
            cases hq : parseQuestions (pyGet plan_data "clarification_questions" (.list [])) with
            | error e => simp only [hq] at h; exact Except.noConfusion h
            | ok u =>
              simp only [hq] at h
              cases h
              have ht := pyContainsID_truthy _ hid
              simp only [mkReasoningPlan, pyOr, ht, if_pos]
              exact hid
          | false =>
            simp only [Bool.false_eq_true, if_false] at h
            cases hsv : pyGet plan_data "domain_skills"
                (.list (ctx.defaultSkills.map PyVal.str)) with
            | list xs =>
                rw [hsv] at h hid
                simp only [pyPrepend] at h
                cases hq : parseQuestions (pyGet plan_data "clarification_questions" (.list [])) with
                | error e => simp only [hq] at h; exact Except.noConfusion h
                | ok u =>
                  simp only [hq] at h
                  cases h
                  simp [mkReasoningPlan, pyOr, PyVal.truthy, pyContains, pyEqStr]
            | pynone => rw [hsv] at h; simp only [pyPrepend] at h; exact Except.noConfusion h
            | pybool b2 => rw [hsv] at h; simp only [pyPrepend] at h; exact Except.noConfusion h
            | pyint n => rw [hsv] at h; simp only [pyPrepend] at h; exact Except.noConfusion h
            | str t => rw [hsv] at h; simp only [pyPrepend] at h; exact Except.noConfusion h
            | dict fs => rw [hsv] at h; simp only [pyPrepend] at h; exact Except.noConfusion h

/-- C1 witness: the membership theorem applied to a concrete fallback
parse (a response with no JSON object). -/
theorem parse_plan_sentinel_membership_witness :
    pyContains "Instructional Designer"
      ((createDefaultPlan eduCtx "plan please").domain_skills) = Except.ok true :=
  parse_plan_sentinel_membership (fun _ => none) eduCtx "plan please" _ rfl

/-- C1 counterexample: a model response listing the sentinel skill
second is parsed successfully, and the parsed `domain_skills` keeps it
at index 1 — the element at index 0 is `"Subject Expert"`, not
`"Instructional Designer"`, so the move-to-index-0 clause of the claim
fails for `_parse_reasoning_plan`. -/
theorem parse_plan_sentinel_not_first_counterexample :
    (parseReasoningPlan c1dec eduCtx c1resp).map ReasoningPlan.domain_skills
      = Except.ok (PyVal.list [PyVal.str "Subject Expert", PyVal.str "Instructional Designer"])
    ∧ "Subject Expert" ≠ "Instructional Designer" := ⟨rfl, by decide⟩

/-- C3 counterexample: on the input string with text
`\x7b"steps": 0\x7d` (valid JSON whose `steps` field has an unexpected
type), `_parse_reasoning_plan` raises an uncaught `TypeError`
(`enumerate` over an `int`) — only `json.JSONDecodeError` is caught, so
parsing does not return a fallback plan but propagates the exception. -/
theorem parse_plan_raises_counterexample :
    parseReasoningPlan c3dec eduCtx c3resp = Except.error PyErr.typeError := rfl

/-- C3 (amended): for every input on which JSON extraction or decoding
fails — the empty string, text with no braced block, malformed JSON —
`_parse_reasoning_plan` returns the deterministic fallback plan and
never raises; only a successfully decoded object with wrong-typed fields
can raise. -/
theorem parse_plan_decode_failure_fallback (dec : String → Option (List (String × PyVal)))
    (ctx : PlanCtx) (resp : String)
    (h : (extractBraced resp).bind dec = none) :
    parseReasoningPlan dec ctx resp = .ok (createDefaultPlan ctx resp) := by
  unfold parseReasoningPlan
  split
  · rfl
  · rename_i jt hb
    rw [hb] at h
    simp only [Option.some_bind] at h
    rw [h]

/-- C3 witness: the fallback theorem applied to the empty input
string. -/
theorem parse_plan_decode_failure_fallback_witness :
    parseReasoningPlan (fun _ => none) eduCtx "" = Except.ok (createDefaultPlan eduCtx "") :=
  parse_plan_decode_failure_fallback (fun _ => none) eduCtx "" rfl

/-- C4 counterexample: a model response whose `domain_capabilities`
repeats `"a"` parses successfully and the duplicate survives into the
plan — the parser never deduplicates the capability list, so the parsed
elements are not pairwise distinct. -/
theorem parsed_capabilities_duplicates_counterexample :
    (parseReasoningPlan c4dec eduCtx c4resp).map ReasoningPlan.domain_capabilities
      = Except.ok (PyVal.list [PyVal.str "a", PyVal.str "a"])
    ∧ ¬ ([PyVal.str "a", PyVal.str "a"] : List PyVal).Nodup :=
  ⟨rfl, fun h => (List.nodup_cons.mp h).1 (List.mem_singleton.mpr rfl)⟩

/-- A value found by association-list lookup is one of the stored
values. -/
theorem lookup_val_mem {α β : Type} [BEq α] (l : List (α × β)) (k : α) (v : β)
    (h : l.lookup k = some v) : v ∈ l.map Prod.snd := by
  induction l with
  | nil => simp [List.lookup] at h
  | cons p t ih =>
      rw [List.lookup] at h
      cases hk : k == p.1 with
      | true => simp only [hk] at h; cases h; simp
      | false => simp only [hk] at h; simp [ih h]

/-- C4 (amended): capability-key distinctness holds for the static
`DOMAIN_CAPABILITIES` tables that seed default and fallback plans —
every per-domain list (including the default) is duplicate-free; parsed
plans, by the counterexample, take the model's list verbatim. -/
theorem static_capability_tables_nodup (domain : String) :
    (getDomainCapabilities domain).Nodup := by
  unfold getDomainCapabilities
  cases h : DOMAIN_CAPABILITIES.lookup domain with
  | none => decide
  | some caps =>
      have hm := lookup_val_mem _ _ _ h
      simp only [DOMAIN_CAPABILITIES, List.map, List.mem_cons, List.not_mem_nil, or_false] at hm
      rcases hm with rfl | rfl | rfl | rfl | rfl | rfl | rfl | rfl | rfl | rfl | rfl <;> decide

/-- `String.join` distributes over `cons`. -/
theorem string_join_cons (a : String) (l : List String) :
    String.join (a :: l) = a ++ String.join l := by
  apply String.ext
  simp

/-- Appending to a non-empty string is non-empty. -/
theorem string_append_ne_left (a b : String) (ha : a ≠ "") : a ++ b ≠ "" := by
  intro h
  apply ha
  apply String.ext
  have h2 := congrArg String.data h
  simp at h2
  simp [h2.1]

/-- The action dispatcher never changes the iteration counter or the
post-loop fallback marker. -/
theorem executeAction_preserves (o : Oracle) (i : Nat) (meta : RPlanMeta)
    (action : String) (st : ExecState) :
    (executeAction o i meta action st).iteration = st.iteration ∧
    (executeAction o i meta action st).fallbackFired = st.fallbackFired := by
  unfold executeAction buildTemplateAction generateSkillsAction
  dsimp only
  split_ifs with h1 h2 h3
  · exact ⟨rfl, rfl⟩
  · cases extractBraced (o.actionOut i) with
    | none => exact ⟨rfl, rfl⟩
    | some jt =>
        dsimp only
        cases o.decodeObj jt with
        | none => exact ⟨rfl, rfl⟩
        | some t => exact ⟨rfl, rfl⟩
  · cases (extractBracketed (o.actionOut i)).bind o.decodeArr with
    | none => exact ⟨rfl, rfl⟩
    | some sk => exact ⟨rfl, rfl⟩
  · exact ⟨rfl, rfl⟩

/-- The loop performs at most `fuel` further iterations. -/
theorem runLoop_iteration_le (o : Oracle) (meta : RPlanMeta) :
    ∀ (fuel : Nat) (st : ExecState),
      (runLoop o meta fuel st).iteration ≤ st.iteration + fuel := by
  intro fuel
  induction fuel with
  | zero => intro st; simp [runLoop]
  | succ n ih =>
      intro st
      unfold runLoop
      cases hpr : parseResponse (o.respond (st.iteration + 1)) with
      | mk th pr2 =>
        cases pr2 with
        | mk action inp =>
          simp only [hpr]
          by_cases h1 : action ≠ "" ∧ pyUpper action = "FINAL_ANSWER"
          · rw [if_pos h1]
            dsimp only
            omega
          · rw [if_neg h1]
            by_cases hg : action ≠ ""
            · rw [if_pos hg]
              by_cases hgen : pyUpper action = "GENERATE"
              · rw [if_pos hgen]
                refine le_trans (ih _) ?_
                have h3 := (executeAction_preserves o (st.iteration + 1) meta action
                  { st with iteration := st.iteration + 1 }).1
                dsimp only
                dsimp only at h3
                omega
              · rw [if_neg hgen]
                refine le_trans (ih _) ?_
                have h3 := (executeAction_preserves o (st.iteration + 1) meta action
                  { st with iteration := st.iteration + 1 }).1
                dsimp only at h3
                omega
            · rw [if_neg hg]
              refine le_trans (ih _) ?_
              dsimp only
              omega

/-- The loop never touches the fallback marker. -/
theorem runLoop_fallbackFired (o : Oracle) (meta : RPlanMeta) :
    ∀ (fuel : Nat) (st : ExecState),
      (runLoop o meta fuel st).fallbackFired = st.fallbackFired := by
  intro fuel
  induction fuel with
  | zero => intro st; rfl
  | succ n ih =>
      intro st
      unfold runLoop
      cases hpr : parseResponse (o.respond (st.iteration + 1)) with
      | mk th pr2 =>
        cases pr2 with
        | mk action inp =>
          simp only [hpr]
          by_cases h1 : action ≠ "" ∧ pyUpper action = "FINAL_ANSWER"
          · rw [if_pos h1]
          · rw [if_neg h1]
            by_cases hg : action ≠ ""
            · rw [if_pos hg]
              by_cases hgen : pyUpper action = "GENERATE"
              · rw [if_pos hgen, ih]
                have h3 := (executeAction_preserves o (st.iteration + 1) meta action
                  { st with iteration := st.iteration + 1 }).2
                dsimp only
                dsimp only at h3
                exact h3
              · rw [if_neg hgen, ih]
                exact (executeAction_preserves o (st.iteration + 1) meta action
                  { st with iteration := st.iteration + 1 }).2
            · rw [if_neg hg, ih]

/-- The artifact-compilation epilogue does not change the iteration
count. -/
theorem runReAct_iteration (o : Oracle) (meta : RPlanMeta) (floor : Nat) :
    (runReAct o meta floor).iteration
      = (runLoop o meta (dynamicMaxIterations meta floor) ExecState.init).iteration := by
  unfold runReAct
  dsimp only
  split_ifs <;> rfl

/-- C2 (amended): for every plan with at least one step and every model
behaviour, the execution loop performs at most
`max(2·N + 3, configured_floor)` iterations; for a zero-step plan the
source substitutes `num_steps = 3`, so the bound is `max(9, floor)`
(which coincides with the claimed bound whenever the configured floor is
at least 9, e.g. the default 20). -/
theorem execution_loop_iteration_bound (o : Oracle) (meta : RPlanMeta) (floor : Nat) :
    (meta.steps ≠ [] →
      (runReAct o meta floor).iteration ≤ max (2 * meta.steps.length + 3) floor)
    ∧ (meta.steps = [] → (runReAct o meta floor).iteration ≤ max 9 floor) := by
  have hb := runLoop_iteration_le o meta (dynamicMaxIterations meta floor) ExecState.init
  have hb2 : (runLoop o meta (dynamicMaxIterations meta floor) ExecState.init).iteration
      ≤ dynamicMaxIterations meta floor := by
    simpa [ExecState.init] using hb
  rw [runReAct_iteration o meta floor]
  constructor
  · intro h
    cases hms : meta.steps with
    | nil => exact absurd hms h
    | cons a t =>
        have hd : dynamicMaxIterations meta floor = max ((a :: t).length * 2 + 3) floor := by
          simp [dynamicMaxIterations, hms]
        refine le_trans hb2 ?_
        rw [hd]
        omega
  · intro h
    have hd : dynamicMaxIterations meta floor = max 9 floor := by
      simp [dynamicMaxIterations, h]
    refine le_trans hb2 ?_
    rw [hd]

/-- C2 witness: the bound theorem applied to a one-step plan with
configured floor 5 against the never-finishing model. -/
theorem execution_loop_iteration_bound_witness :
    (runReAct spinOracle metaOne 5).iteration ≤ max (2 * metaOne.steps.length + 3) 5 :=
  (execution_loop_iteration_bound spinOracle metaOne 5).1 (by simp [metaOne])

/-- C2 counterexample: for a plan with zero steps and configured floor
5, the loop runs 9 iterations — more than the claimed ceiling
`max(2·0 + 3, 5) = 5` — because the source substitutes `num_steps = 3`
when the step list is empty. -/
theorem execution_loop_zero_step_counterexample :
    metaZero.steps.length = 0
    ∧ (runReAct spinOracle metaZero 5).iteration = 9
    ∧ ¬ ((runReAct spinOracle metaZero 5).iteration ≤ max (2 * metaZero.steps.length + 3) 5) :=
  ⟨rfl, rfl, by decide⟩

/-- When every response in the remaining window parses to no action,
each iteration appends the raw response to `final_output` and changes
nothing else: the loop result's artifact is the concatenation of the
window's responses (`react.py:238-241`). -/
theorem runLoop_noAction (o : Oracle) (meta : RPlanMeta) :
    ∀ (fuel : Nat) (st : ExecState),
      (∀ i, st.iteration < i → i ≤ st.iteration + fuel →
        (parseResponse (o.respond i)).2.1 = "") →
      (runLoop o meta fuel st).finalOutput
        = st.finalOutput ++
            String.join ((List.range fuel).map (fun k => o.respond (st.iteration + 1 + k)))
      ∧ (runLoop o meta fuel st).generatedContent = st.generatedContent := by
  intro fuel
  induction fuel with
  | zero =>
      intro st hno
      constructor
      · simp [runLoop, String.join]
      · rfl
  | succ n ih =>
      intro st hno
      unfold runLoop
      cases hpr : parseResponse (o.respond (st.iteration + 1)) with
      | mk th pr2 =>
        cases pr2 with
        | mk action inp =>
          have ha : action = "" := by
            have h0 := hno (st.iteration + 1) (by omega) (by omega)
            rw [hpr] at h0
            exact h0
          subst ha
          simp only [hpr]
          rw [if_neg (by simp), if_neg (by simp)]
          obtain ⟨ihf, ihg⟩ :=
            ih { st with iteration := st.iteration + 1,
                         finalOutput := st.finalOutput ++ o.respond (st.iteration + 1) }
               (fun i hlo hhi => hno i (by simp at hlo; omega) (by simp at hhi; omega))
          refine ⟨?_, ihg⟩
          rw [ihf]
          dsimp only
          rw [List.range_succ_eq_map, List.map_cons, string_join_cons, List.map_map]
          have hfun : ((fun k => o.respond (st.iteration + 1 + k)) ∘ Nat.succ)
              = (fun k => o.respond (st.iteration + 1 + 1 + k)) := by
            funext k
            simp only [Function.comp]
            congr 1
            omega
          rw [hfun, String.append_assoc]

/-- C9 (amended): when the iteration ceiling is reached, responses that
carried no parseable `ACTION:` have already been accumulated into the
artifact; the two fallbacks fire only when that accumulated artifact is
empty — then (a) the joined `GENERATE` outputs are used when any exist,
else (b) one direct LLM call.  In particular a run in which every model
response omits `ACTION:` and is non-empty ends with the non-empty
accumulated artifact and the direct-answer fallback does not fire. -/
theorem fallback_artifact_amended (o : Oracle) (meta : RPlanMeta) (floor : Nat) :
    ((runLoop o meta (dynamicMaxIterations meta floor) ExecState.init).finalOutput = "" →
      ((runLoop o meta (dynamicMaxIterations meta floor) ExecState.init).generatedContent ≠ [] →
        (runReAct o meta floor).finalOutput
          = String.intercalate "\n\n"
              (runLoop o meta (dynamicMaxIterations meta floor) ExecState.init).generatedContent
        ∧ (runReAct o meta floor).fallbackFired = false)
      ∧ ((runLoop o meta (dynamicMaxIterations meta floor) ExecState.init).generatedContent = [] →
        (runReAct o meta floor).finalOutput = o.fallbackOut
        ∧ (runReAct o meta floor).fallbackFired = true))
    ∧ ((∀ i, 1 ≤ i → i ≤ dynamicMaxIterations meta floor →
          (parseResponse (o.respond i)).2.1 = "" ∧ o.respond i ≠ "") →
        (runReAct o meta floor).finalOutput ≠ ""
        ∧ (runReAct o meta floor).fallbackFired = false) := by
  constructor
  · intro hempty
    constructor
    · intro hgen
      unfold runReAct
      dsimp only
      rw [if_pos hempty, if_neg hgen]
      refine ⟨rfl, ?_⟩
      exact runLoop_fallbackFired o meta (dynamicMaxIterations meta floor) ExecState.init
    · intro hgen
      unfold runReAct
      dsimp only
      rw [if_pos hempty, if_pos hgen]
      exact ⟨rfl, rfl⟩
  · intro hall
    have hno : ∀ i, ExecState.init.iteration < i →
        i ≤ ExecState.init.iteration + dynamicMaxIterations meta floor →
        (parseResponse (o.respond i)).2.1 = "" := by
      intro i h1 h2
      exact (hall i (by simpa [ExecState.init] using h1)
        (by simpa [ExecState.init] using h2)).1
    obtain ⟨hfo, hg⟩ := runLoop_noAction o meta (dynamicMaxIterations meta floor) ExecState.init hno
    have hdyn : 1 ≤ dynamicMaxIterations meta floor := by
      unfold dynamicMaxIterations
      dsimp only
      split <;> omega
    have hx : ∀ x : String, ("" ++ x) = x := fun x => by
      apply String.ext
      simp
    have hne : (runLoop o meta (dynamicMaxIterations meta floor) ExecState.init).finalOutput ≠ "" := by
      rw [hfo]
      cases hd : dynamicMaxIterations meta floor with
      | zero => omega
      | succ m =>
          show (ExecState.init.finalOutput ++ _) ≠ ""
          rw [show ExecState.init.finalOutput = "" from rfl, hx]
          rw [List.range_succ_eq_map, List.map_cons, string_join_cons]
          apply string_append_ne_left
          have h1 := (hall 1 (le_refl 1) (by omega)).2
          simpa [ExecState.init] using h1
    unfold runReAct
    dsimp only
    rw [if_neg hne]
    exact ⟨hne, runLoop_fallbackFired o meta (dynamicMaxIterations meta floor) ExecState.init⟩

/-- C9 witness: against the concrete never-acting, never-empty model,
the run ends with a non-empty artifact and no direct-answer fallback. -/
theorem fallback_artifact_amended_witness :
    (runReAct spinOracle metaOne 0).finalOutput ≠ ""
    ∧ (runReAct spinOracle metaOne 0).fallbackFired = false :=
  have hne : ("keep going" : String) ≠ "" := by decide
  (fallback_artifact_amended spinOracle metaOne 0).2 (fun _ _ _ => ⟨rfl, hne⟩)

/-- C9 counterexample: a run in which every model response omits
`ACTION:` (and is non-empty) ends with the concatenated raw responses as
the artifact — no `GENERATE` output exists and the artifact differs from
the direct-answer output `"FB"`, and the direct-answer fallback did not
fire — so the claim that the final artifact is either the
`GENERATE`-concatenation or the direct-answer result (with the fallback
firing in this scenario) fails. -/
theorem fallback_artifact_counterexample :
    (runReAct spinOracle metaOne 0).finalOutput
      = "keep goingkeep goingkeep goingkeep goingkeep going"
    ∧ (runReAct spinOracle metaOne 0).generatedContent = []
    ∧ (runReAct spinOracle metaOne 0).fallbackFired = false
    ∧ spinOracle.fallbackOut = "FB"
    ∧ "keep goingkeep goingkeep goingkeep goingkeep going" ≠ "FB"
    ∧ "keep goingkeep goingkeep goingkeep goingkeep going" ≠ "" :=
  ⟨rfl, rfl, rfl, rfl, by decide, by decide⟩

/-- The duplicate scan returns nothing exactly when the keys are
distinct and fresh with respect to the already-seen set. -/
theorem dupScan_eq_nil (l : List String) : ∀ (seen : List String),
    (dupScan seen l = [] ↔ (l.Nodup ∧ ∀ x ∈ l, x ∉ seen)) := by
  induction l with
  | nil => intro seen; simp [dupScan]
  | cons k ks ih =>
      intro seen
      unfold dupScan
      by_cases hk : seen.contains k
      · rw [if_pos hk]
        have hkm : k ∈ seen := by simpa using hk
        constructor
        · intro h; exact absurd h (by simp)
        · rintro ⟨-, hall⟩
          exact absurd hkm (hall k (List.mem_cons_self k ks))
      · rw [if_neg hk]
        have hknot : k ∉ seen := by simpa using hk
        rw [ih (k :: seen)]
        constructor
        · rintro ⟨hnd, hall⟩
          refine ⟨List.nodup_cons.mpr ⟨?_, hnd⟩, ?_⟩
          · intro hmem
            exact (hall k hmem) (List.mem_cons_self k seen)
          · intro x hx
            rcases List.mem_cons.mp hx with rfl | hx2
            · exact hknot
            · intro hxs
              exact (hall x hx2) (List.mem_cons_of_mem k hxs)
        · rintro ⟨hnd, hall⟩
          refine ⟨(List.nodup_cons.mp hnd).2, ?_⟩
          intro x hx hxk
          rcases List.mem_cons.mp hxk with rfl | hxs
          · exact (List.nodup_cons.mp hnd).1 hx
          · exact (hall x (List.mem_cons_of_mem k hx)) hxs

/-- One required-field pass touches only `schema_valid`, `schema_issues`
and the score. -/
theorem requiredFieldStep_components (u : List (String × PyVal)) (v : TemplateValidation) (f : String) :
    (requiredFieldStep u v f).instructional_designer_present = v.instructional_designer_present
    ∧ (requiredFieldStep u v f).has_unique_keys = v.has_unique_keys
    ∧ (requiredFieldStep u v f).duplicate_keys = v.duplicate_keys
    ∧ (requiredFieldStep u v f).critical_issues = v.critical_issues
    ∧ (requiredFieldStep u v f).schema_valid = (v.schema_valid && pyHasKey u f) := by
  unfold requiredFieldStep
  by_cases hf : pyHasKey u f
  · rw [if_pos hf]
    exact ⟨rfl, rfl, rfl, rfl, by simp [hf]⟩
  · rw [if_neg hf]
    have hf2 : pyHasKey u f = false := by simpa using hf
    exact ⟨rfl, rfl, rfl, rfl, by simp [hf2]⟩

/-- The required-field fold leaves the sentinel / duplicate / critical
components intact and ands `schema_valid` with presence of every
required field. -/
theorem foldRequired_components (u : List (String × PyVal)) (fs : List String) :
    ∀ (v : TemplateValidation),
    (fs.foldl (requiredFieldStep u) v).instructional_designer_present = v.instructional_designer_present
    ∧ (fs.foldl (requiredFieldStep u) v).has_unique_keys = v.has_unique_keys
    ∧ (fs.foldl (requiredFieldStep u) v).duplicate_keys = v.duplicate_keys
    ∧ (fs.foldl (requiredFieldStep u) v).critical_issues = v.critical_issues
    ∧ (fs.foldl (requiredFieldStep u) v).schema_valid = (v.schema_valid && fs.all (pyHasKey u)) := by
  induction fs with
  | nil => intro v; exact ⟨rfl, rfl, rfl, rfl, by simp⟩
  | cons f t ih =>
      intro v
      rw [List.foldl_cons]
      obtain ⟨i1, i2, i3, i4, i5⟩ := ih (requiredFieldStep u v f)
      obtain ⟨s1, s2, s3, s4, s5⟩ := requiredFieldStep_components u v f
      refine ⟨by rw [i1, s1], by rw [i2, s2], by rw [i3, s3], by rw [i4, s4], ?_⟩
      rw [i5, s5, List.all_cons, Bool.and_assoc]

/-- The metadata check touches only `schema_issues`. -/
theorem metadataCheck_components (u : List (String × PyVal)) (v : TemplateValidation) :
    (metadataCheck u v).instructional_designer_present = v.instructional_designer_present
    ∧ (metadataCheck u v).has_unique_keys = v.has_unique_keys
    ∧ (metadataCheck u v).duplicate_keys = v.duplicate_keys
    ∧ (metadataCheck u v).critical_issues = v.critical_issues
    ∧ (metadataCheck u v).schema_valid = v.schema_valid := by
  unfold metadataCheck
  cases pyGet u "metadata" (.dict []) <;>
    first
      | exact ⟨rfl, rfl, rfl, rfl, rfl⟩
      | (dsimp only; split_ifs <;> exact ⟨rfl, rfl, rfl, rfl, rfl⟩)

/-- The skills check never reports duplicates and never clears
`schema_valid`. -/
theorem skillsCheck_base (sv : PyVal) :
    (skillsCheck sv).has_unique_keys = true
    ∧ (skillsCheck sv).duplicate_keys = []
    ∧ (skillsCheck sv).schema_valid = true := by
  unfold skillsCheck
  cases sv <;>
    first
      | exact ⟨rfl, rfl, rfl⟩
      | (dsimp only; split_ifs <;> exact ⟨rfl, rfl, rfl⟩)

/-- On a list-valued skills field the check records exactly sentinel
membership, with a critical issue when absent. -/
theorem skillsCheck_list (l : List PyVal) :
    (skillsCheck (.list l)).instructional_designer_present = l.any (pyEqStr "Instructional Designer")
    ∧ (skillsCheck (.list l)).critical_issues
        = (if l.any (pyEqStr "Instructional Designer") then []
           else ["'Instructional Designer' skill is MISSING"]) := by
  unfold skillsCheck
  by_cases h : l.any (pyEqStr "Instructional Designer") = true
  · simp [h, TemplateValidation.init]
  · have h2 : l.any (pyEqStr "Instructional Designer") = false := by simpa using h
    simp [h2, TemplateValidation.init]

/-- The capability check on a dict: duplicates flip `has_unique_keys`
and add a critical issue; nothing else in the gate changes. -/
theorem capsCheck_dict (d : List (String × PyVal)) (v : TemplateValidation) :
    (capsCheck (.dict d) v).instructional_designer_present = v.instructional_designer_present
    ∧ (capsCheck (.dict d) v).schema_valid = v.schema_valid
    ∧ (capsCheck (.dict d) v).has_unique_keys
        = (if (dupScan [] (d.map Prod.fst)).isEmpty then v.has_unique_keys else false)
    ∧ (capsCheck (.dict d) v).duplicate_keys
        = (if (dupScan [] (d.map Prod.fst)).isEmpty then v.duplicate_keys
           else dupScan [] (d.map Prod.fst))
    ∧ (capsCheck (.dict d) v).critical_issues
        = (if (dupScan [] (d.map Prod.fst)).isEmpty then v.critical_issues
           else v.critical_issues ++ ["Duplicate keys found"]) := by
  unfold capsCheck
  dsimp only
  by_cases hd : (dupScan [] (d.map Prod.fst)).isEmpty
  · simp [hd]
  · have hd2 : (dupScan [] (d.map Prod.fst)).isEmpty = false := by simpa using hd
    simp [hd2]

/-- C10: when the `capabilities` value handed to the structural
validator is a dict with distinct keys — which every Python dict has by
construction — the duplicate-key branch is unreachable: the reported
`duplicate_keys` list is empty and `has_unique_keys` stays true, so
`is_valid` can never be falsified by duplicate capability keys. -/
theorem dict_capabilities_no_duplicates
    (tf cp : List (String × PyVal)) (expected : List String) (v : TemplateValidation)
    (hcp : pyGet (unwrapTemplate tf) "capabilities" (.dict []) = .dict cp)
    (hnodup : (cp.map Prod.fst).Nodup)
    (hv : validateTemplateStructure (.dict tf) expected = .ok v) :
    v.duplicate_keys = [] ∧ v.has_unique_keys = true := by
  have hdup : dupScan [] (cp.map Prod.fst) = [] :=
    (dupScan_eq_nil (cp.map Prod.fst) []).mpr ⟨hnodup, by simp⟩
  unfold validateTemplateStructure at hv
  dsimp only at hv
  rw [hcp] at hv
  cases hm : expected.filterM
      (fun sk => (pyContains sk (pyGet (unwrapTemplate tf) "skills" (.list []))).map (fun b => !b)) with
  | error e => rw [hm] at hv; exact Except.noConfusion hv
  | ok missing =>
      simp only [hm] at hv
      cases hu : uuidCheck (pyGet (unwrapTemplate tf) "id" (.str "")) with
      | error e => simp only [hu] at hv; exact Except.noConfusion hv
      | ok idOk =>
          simp only [hu] at hv
          cases hv
          cases idOk <;>
            simp [metadataCheck_components, foldRequired_components, requiredFieldStep_components,
                  capsCheck_dict, skillsCheck_base, hdup]

/-- C10 witness: the no-duplicates theorem applied to a concrete
schema-complete template dict. -/
theorem dict_capabilities_no_duplicates_witness :
    (validateTemplateStructure (.dict okTemplate) ["Instructional Designer"]).map
        TemplateValidation.has_unique_keys = Except.ok true := by
  have h := dict_capabilities_no_duplicates okTemplate
      [("learning_objectives", PyVal.str "x"), ("assessment_criteria", PyVal.str "y")]
      ["Instructional Designer"] _ rfl (by decide) rfl
  exact congrArg Except.ok h.2

/-- C5: for a template-shaped input (a dict whose `skills` value is a
list and whose `capabilities` value is a dict), the validator's
`is_valid` is true iff the sentinel skill is present in the skills array
AND the capability keys contain no duplicates AND all required top-level
fields are present AND the set of critical issues is empty; in
particular a template missing the sentinel always yields
`is_valid = false`, regardless of any other scores. -/
theorem validator_conjunctive_gate
    (tf cp : List (String × PyVal)) (l : List PyVal) (expected : List String)
    (v : TemplateValidation)
    (hsk : pyGet (unwrapTemplate tf) "skills" (.list []) = .list l)
    (hcp : pyGet (unwrapTemplate tf) "capabilities" (.dict []) = .dict cp)
    (hv : validateTemplateStructure (.dict tf) expected = .ok v) :
    (v.is_valid = true ↔
      (l.any (pyEqStr "Instructional Designer") = true
       ∧ (cp.map Prod.fst).Nodup
       ∧ ["id", "domain", "metadata", "skills", "capabilities"].all
           (pyHasKey (unwrapTemplate tf)) = true
       ∧ v.critical_issues = []))
    ∧ (l.any (pyEqStr "Instructional Designer") = false → v.is_valid = false) := by
  have hNodup : (cp.map Prod.fst).Nodup ↔ dupScan [] (cp.map Prod.fst) = [] := by
    rw [dupScan_eq_nil]
    simp
  unfold validateTemplateStructure at hv
  dsimp only at hv
  rw [hsk, hcp] at hv
  cases hm : expected.filterM
      (fun sk => (pyContains sk (PyVal.list l)).map (fun b => !b)) with
  | error e => rw [hm] at hv; exact Except.noConfusion hv
  | ok missing =>
      simp only [hm] at hv
      cases hu : uuidCheck (pyGet (unwrapTemplate tf) "id" (.str "")) with
      | error e => simp only [hu] at hv; exact Except.noConfusion hv
      | ok idOk =>
          simp only [hu] at hv
          cases hv
          by_cases hA : l.any (pyEqStr "Instructional Designer") = true
          · by_cases hD : dupScan [] (cp.map Prod.fst) = []
            · cases idOk <;>
                simp [metadataCheck_components, foldRequired_components,
                      requiredFieldStep_components, capsCheck_dict, skillsCheck_base,
                      skillsCheck_list, hA, hD, hNodup, and_assoc]
            · have hD2 : (dupScan [] (cp.map Prod.fst)).isEmpty = false := by
                simpa [List.isEmpty_iff] using hD
              cases idOk <;>
                simp [metadataCheck_components, foldRequired_components,
                      requiredFieldStep_components, capsCheck_dict, skillsCheck_base,
                      skillsCheck_list, hA, hD, hD2, hNodup]
          · have hA2 : l.any (pyEqStr "Instructional Designer") = false := by simpa using hA
            by_cases hD : dupScan [] (cp.map Prod.fst) = []
            · cases idOk <;>
                simp [metadataCheck_components, foldRequired_components,
                      requiredFieldStep_components, capsCheck_dict, skillsCheck_base,
                      skillsCheck_list, hA2, hD, hNodup]
            · have hD2 : (dupScan [] (cp.map Prod.fst)).isEmpty = false := by
                simpa [List.isEmpty_iff] using hD
              cases idOk <;>
                simp [metadataCheck_components, foldRequired_components,
                      requiredFieldStep_components, capsCheck_dict, skillsCheck_base,
                      skillsCheck_list, hA2, hD, hD2, hNodup]

/-- C5 witness: the gate theorem applied to a concrete schema-complete
template with the sentinel skill and distinct capability keys yields
`is_valid = true`. -/
theorem validator_conjunctive_gate_witness :
    (validateTemplateStructure (.dict okTemplate) ["Instructional Designer"]).map
        TemplateValidation.is_valid = Except.ok true := by
  have h := (validator_conjunctive_gate okTemplate
      [("learning_objectives", PyVal.str "x"), ("assessment_criteria", PyVal.str "y")]
      [PyVal.str "Instructional Designer", PyVal.str "Curriculum Designer"]
      ["Instructional Designer"] _ rfl rfl rfl).1.mpr
      ⟨rfl, by decide, rfl, rfl⟩
  exact congrArg Except.ok h
